import Mathlib

/-!
Verification development for the TaskFlow task-manager core
(`lib/sorting.ts`, `lib/filtering.ts`, `lib/taskUtils.ts`).

Modelling conventions:
* ISO timestamp strings are modelled as epoch-millisecond integers (`Int`),
  since the code only ever compares them through `new Date(_).getTime()`.
* Optional fields (`dueDate`, `description`, `assignee`) become `Option`.
* `localeCompare` is modelled as lexicographic string comparison returning
  `-1 / 0 / 1`.
* `Array.prototype.sort(cmp)` is a stable sort keeping `a` before `b`
  whenever `cmp a b ≤ 0`; it is modelled by `List.mergeSort` (stable) with
  the boolean relation `cmp a b ≤ 0`.
* The wall clock (`new Date()` / `Date.now()`) is passed explicitly as a
  `now : Int` parameter.
-/

namespace TaskFlow

-- ─── Task record model (types/index.ts) ──────────────────────────────────────

inductive Priority where
  | low | medium | high | critical
deriving DecidableEq, Repr

inductive Category where
  | work | personal | shopping | health | other
deriving DecidableEq, Repr

inductive Status where
  | todo | inProgress | done
deriving DecidableEq, Repr

/-- The string label of each status, as used by `status.localeCompare`. -/
def statusLabel : Status → String
  | .todo => "todo"
  | .inProgress => "in-progress"
  | .done => "done"

structure Task where
  id : String
  title : String
  description : Option String
  priority : Priority
  category : Category
  status : Status
  dueDate : Option Int
  createdAt : Int
  updatedAt : Int
  tags : List String
  assignee : Option String
deriving DecidableEq, Repr

-- ─── Priority utilities (taskUtils.ts) ───────────────────────────────────────

/-- PRIORITY_WEIGHTS: low 1, medium 2, high 3, critical 4. -/
def getPriorityWeight : Priority → Int
  | .low => 1
  | .medium => 2
  | .high => 3
  | .critical => 4

-- ─── String helpers (models of JS string primitives) ─────────────────────────

/-- Whether `q` is a prefix of `l` (character lists). -/
def prefCheck : List Char → List Char → Bool
  | [], _ => true
  | _ :: _, [] => false
  | a :: q, b :: l => a = b && prefCheck q l

/-- Whether `q` occurs contiguously inside `l` (character lists). -/
def substrCheck : List Char → List Char → Bool
  | q, [] => prefCheck q []
  | q, l@(_ :: rest) => prefCheck q l || substrCheck q rest

/-- Model of JS `s.includes(q)`. -/
def strIncludes (s q : String) : Bool :=
  substrCheck q.data s.data

/-- Model of JS `s.toLowerCase()`: character-wise lowering. -/
def strToLower (s : String) : String :=
  ⟨s.data.map Char.toLower⟩

/-- Model of JS `s.trim()`: strip leading and trailing whitespace. -/
def strTrim (s : String) : String :=
  ⟨((s.data.dropWhile Char.isWhitespace).reverse.dropWhile Char.isWhitespace).reverse⟩

/-- Model of `a.localeCompare(b)`: lexicographic, returning -1 / 0 / 1. -/
def strCompare (s t : String) : Int :=
  if s < t then -1 else if s = t then 0 else 1

-- ─── Comparators (sorting.ts) ────────────────────────────────────────────────

/-- Alphabetical sort by title (case-insensitive). -/
def compareByTitle (a b : Task) : Int :=
  strCompare (strToLower a.title) (strToLower b.title)

/-- Priority sort — higher priority first (critical before low). -/
def compareByPriority (a b : Task) : Int :=
  getPriorityWeight b.priority - getPriorityWeight a.priority

/-- Creation-date sort — newer tasks first. -/
def compareByCreatedAt (a b : Task) : Int :=
  b.createdAt - a.createdAt

/-- Due-date sort — tasks without a due date are pushed to the end;
among dated tasks, earlier deadlines come first. -/
def compareByDueDate (a b : Task) : Int :=
  match a.dueDate, b.dueDate with
  | none, none => 0
  | none, some _ => 1
  | some _, none => -1
  | some x, some y => x - y

inductive SortField where
  | title | priority | createdAt | dueDate | status
deriving DecidableEq, Repr

inductive SortOrder where
  | asc | desc
deriving DecidableEq, Repr

/-- The COMPARATORS record of sorting.ts. -/
def comparatorFor : SortField → Task → Task → Int
  | .title => compareByTitle
  | .priority => compareByPriority
  | .createdAt => compareByCreatedAt
  | .dueDate => compareByDueDate
  | .status => fun a b => strCompare (statusLabel a.status) (statusLabel b.status)

/-- JS `Array.prototype.sort(cmp)` convention: keep `a` before `b` when
`cmp a b ≤ 0` (stable). -/
def jsSortLe (cmp : Task → Task → Int) (a b : Task) : Bool :=
  cmp a b ≤ 0

/-- sortTasks: sorted copy by the chosen comparator, reversed when `desc`. -/
def sortTasks (tasks : List Task) (field : SortField) (order : SortOrder) : List Task :=
  let sorted := tasks.mergeSort (jsSortLe (comparatorFor field))
  match order with
  | .desc => sorted.reverse
  | .asc => sorted

structure SortCriteria where
  field : SortField
  order : SortOrder
deriving DecidableEq, Repr

/-- The comparator closure inside multiSort: first non-zero comparator wins,
negated when its order is desc. -/
def multiCmp (criteria : List SortCriteria) (a b : Task) : Int :=
  match criteria with
  | [] => 0
  | c :: rest =>
    let cmp := comparatorFor c.field a b
    if cmp ≠ 0 then (if c.order = SortOrder.asc then cmp else -cmp)
    else multiCmp rest a b

/-- multiSort: single stable sort with the chained comparator. -/
def multiSort (tasks : List Task) (criteria : List SortCriteria) : List Task :=
  tasks.mergeSort (jsSortLe (multiCmp criteria))

-- ─── Overdue predicate and search (taskUtils.ts) ─────────────────────────────

/-- isTaskOverdue: has a due date in the past and is not yet done. -/
def isTaskOverdue (now : Int) (task : Task) : Bool :=
  match task.dueDate with
  | none => false
  | some due => if task.status = Status.done then false else decide (due < now)

/-- filterTasksBySearch: free-text query across title, description and tags;
case-insensitive; all tasks when the query is blank. -/
def filterTasksBySearch (tasks : List Task) (query : String) : List Task :=
  let q := strToLower (strTrim query)
  if q = "" then tasks
  else tasks.filter fun task =>
    strIncludes (strToLower task.title) q ||
    (match task.description with
     | some d => strIncludes (strToLower d) q
     | none => false) ||
    task.tags.any fun tag => strIncludes (strToLower tag) q

-- ─── Filter stages and pipeline (filtering.ts) ───────────────────────────────

/-- filterByPriority; `none` models the sentinel value all. -/
def filterByPriority (tasks : List Task) (priority : Option Priority) : List Task :=
  match priority with
  | none => tasks
  | some p => tasks.filter fun t => t.priority = p

/-- filterByCategory; `none` models the sentinel value all. -/
def filterByCategory (tasks : List Task) (category : Option Category) : List Task :=
  match category with
  | none => tasks
  | some c => tasks.filter fun t => t.category = c

/-- filterByStatus; `none` models the sentinel value all. -/
def filterByStatus (tasks : List Task) (status : Option Status) : List Task :=
  match status with
  | none => tasks
  | some s => tasks.filter fun t => t.status = s

/-- filterOverdue: past due date and not done. -/
def filterOverdue (now : Int) (tasks : List Task) : List Task :=
  tasks.filter fun t =>
    match t.dueDate with
    | some due => t.status ≠ Status.done && due < now
    | none => false

structure TaskFilters where
  search : String
  priority : Option Priority
  category : Option Category
  status : Option Status
  sortBy : SortField
  sortOrder : SortOrder
deriving DecidableEq, Repr

/-- applyFilters: search → priority → category → status → sort. -/
def applyFilters (tasks : List Task) (filters : TaskFilters) : List Task :=
  let r1 := filterTasksBySearch tasks filters.search
  let r2 := filterByPriority r1 filters.priority
  let r3 := filterByCategory r2 filters.category
  let r4 := filterByStatus r3 filters.status
  sortTasks r4 filters.sortBy filters.sortOrder

-- ─── Statistics (taskUtils.ts) ───────────────────────────────────────────────

structure StatusCounts where
  todo : Nat
  inProgress : Nat
  done : Nat
deriving DecidableEq, Repr

structure PriorityCounts where
  low : Nat
  medium : Nat
  high : Nat
  critical : Nat
deriving DecidableEq, Repr

structure CategoryCounts where
  work : Nat
  personal : Nat
  shopping : Nat
  health : Nat
  other : Nat
deriving DecidableEq, Repr

structure TaskStats where
  total : Nat
  byStatus : StatusCounts
  byPriority : PriorityCounts
  byCategory : CategoryCounts
  overdue : Nat
  completionRate : Int
deriving DecidableEq, Repr

/-- Model of `stats.byStatus[task.status]++`. -/
def bumpStatus (c : StatusCounts) : Status → StatusCounts
  | .todo => { c with todo := c.todo + 1 }
  | .inProgress => { c with inProgress := c.inProgress + 1 }
  | .done => { c with done := c.done + 1 }

/-- Model of `stats.byPriority[task.priority]++`. -/
def bumpPriority (c : PriorityCounts) : Priority → PriorityCounts
  | .low => { c with low := c.low + 1 }
  | .medium => { c with medium := c.medium + 1 }
  | .high => { c with high := c.high + 1 }
  | .critical => { c with critical := c.critical + 1 }

/-- Model of `stats.byCategory[task.category]++`. -/
def bumpCategory (c : CategoryCounts) : Category → CategoryCounts
  | .work => { c with work := c.work + 1 }
  | .personal => { c with personal := c.personal + 1 }
  | .shopping => { c with shopping := c.shopping + 1 }
  | .health => { c with health := c.health + 1 }
  | .other => { c with other := c.other + 1 }

/-- The body of the `tasks.forEach` loop of calculateStats. -/
def statsStep (now : Int) (s : TaskStats) (t : Task) : TaskStats :=
  { s with
    byStatus := bumpStatus s.byStatus t.status
    byPriority := bumpPriority s.byPriority t.priority
    byCategory := bumpCategory s.byCategory t.category
    overdue := if isTaskOverdue now t then s.overdue + 1 else s.overdue }

/-- Model of JS `Math.round` on a non-negative rational. -/
def jsRound (q : Rat) : Int :=
  (q + 1 / 2).floor

/-- calculateStats: zero-initialised counters, one pass, then the rate. -/
def calculateStats (now : Int) (tasks : List Task) : TaskStats :=
  let init : TaskStats :=
    { total := tasks.length
      byStatus := ⟨0, 0, 0⟩
      byPriority := ⟨0, 0, 0, 0⟩
      byCategory := ⟨0, 0, 0, 0, 0⟩
      overdue := 0
      completionRate := 0 }
  let stats := tasks.foldl (statsStep now) init
  { stats with
    completionRate :=
      if 0 < tasks.length then
        jsRound (((stats.byStatus.done : Rat) / (tasks.length : Rat)) * 100)
      else 0 }

-- ─── CRUD helpers (taskUtils.ts) ─────────────────────────────────────────────

/-- A Partial Task update payload: `some v` means the key is supplied.
For fields that are themselves optional in Task, supplying the key with the
value undefined is `some none`. -/
structure PartialTask where
  id : Option String := none
  title : Option String := none
  description : Option (Option String) := none
  priority : Option Priority := none
  category : Option Category := none
  status : Option Status := none
  dueDate : Option (Option Int) := none
  createdAt : Option Int := none
  updatedAt : Option Int := none
  tags : Option (List String) := none
  assignee : Option (Option String) := none
deriving DecidableEq, Repr

/-- updateTask: spread of task then updates, with id/createdAt re-asserted
from the original and updatedAt set to the fresh timestamp. -/
def updateTask (task : Task) (updates : PartialTask) (now : Int) : Task :=
  { id := task.id
    title := updates.title.getD task.title
    description := updates.description.getD task.description
    priority := updates.priority.getD task.priority
    category := updates.category.getD task.category
    status := updates.status.getD task.status
    dueDate := updates.dueDate.getD task.dueDate
    createdAt := task.createdAt
    updatedAt := now
    tags := updates.tags.getD task.tags
    assignee := updates.assignee.getD task.assignee }

-- ─── Order-theoretic facts about the comparators ─────────────────────────────

theorem strCompare_le_iff (s t : String) : strCompare s t ≤ 0 ↔ s ≤ t := by
  unfold strCompare
  split_ifs with h1 h2
  · simp [h1.le]
  · simp [h2]
  · have h3 : t < s := by
      rcases lt_trichotomy s t with h | h | h
      · exact absurd h h1
      · exact absurd h h2
      · exact h
    simp [not_le_of_gt h3]

theorem jsSortLe_trans (f : SortField) (a b c : Task)
    (hab : jsSortLe (comparatorFor f) a b = true)
    (hbc : jsSortLe (comparatorFor f) b c = true) :
    jsSortLe (comparatorFor f) a c = true := by
  cases f <;>
    simp only [jsSortLe, comparatorFor, compareByTitle, compareByPriority, compareByCreatedAt,
      compareByDueDate, decide_eq_true_eq] at hab hbc ⊢
  · rw [strCompare_le_iff] at hab hbc ⊢
    exact hab.trans hbc
  · omega
  · omega
  · cases ha : a.dueDate <;> cases hb : b.dueDate <;> cases hc : c.dueDate <;>
      simp only [ha, hb, hc] at hab hbc ⊢ <;> omega
  · rw [strCompare_le_iff] at hab hbc ⊢
    exact hab.trans hbc

theorem jsSortLe_total (f : SortField) (a b : Task) :
    (jsSortLe (comparatorFor f) a b || jsSortLe (comparatorFor f) b a) = true := by
  cases f <;>
    simp only [jsSortLe, comparatorFor, compareByTitle, compareByPriority, compareByCreatedAt,
      compareByDueDate, Bool.or_eq_true, decide_eq_true_eq]
  · rw [strCompare_le_iff, strCompare_le_iff]
    exact le_total _ _
  · omega
  · omega
  · cases ha : a.dueDate <;> cases hb : b.dueDate <;> simp only [ha, hb] <;> omega
  · rw [strCompare_le_iff, strCompare_le_iff]
    exact le_total _ _

theorem mergeSort_field_idem (f : SortField) (l : List Task) :
    (l.mergeSort (jsSortLe (comparatorFor f))).mergeSort (jsSortLe (comparatorFor f)) =
      l.mergeSort (jsSortLe (comparatorFor f)) :=
  List.mergeSort_of_sorted
    (List.sorted_mergeSort (fun a b c => jsSortLe_trans f a b c)
      (fun a b => jsSortLe_total f a b) l)

theorem mem_sortTasks {x : Task} {ts : List Task} {f : SortField} {o : SortOrder} :
    x ∈ sortTasks ts f o ↔ x ∈ ts := by
  unfold sortTasks
  cases o <;> simp

-- ─── Filter-stage helper lemmas ──────────────────────────────────────────────

theorem filterByPriority_eq_self (l ts : List Task) (p : Option Priority)
    (h : ∀ x ∈ l, x ∈ filterByPriority ts p) : filterByPriority l p = l := by
  cases p with
  | none => rfl
  | some v =>
    simp only [filterByPriority] at h ⊢
    exact List.filter_eq_self.mpr fun a ha => (List.mem_filter.mp (h a ha)).2

theorem filterByCategory_eq_self (l ts : List Task) (c : Option Category)
    (h : ∀ x ∈ l, x ∈ filterByCategory ts c) : filterByCategory l c = l := by
  cases c with
  | none => rfl
  | some v =>
    simp only [filterByCategory] at h ⊢
    exact List.filter_eq_self.mpr fun a ha => (List.mem_filter.mp (h a ha)).2

theorem filterByStatus_eq_self (l ts : List Task) (s : Option Status)
    (h : ∀ x ∈ l, x ∈ filterByStatus ts s) : filterByStatus l s = l := by
  cases s with
  | none => rfl
  | some v =>
    simp only [filterByStatus] at h ⊢
    exact List.filter_eq_self.mpr fun a ha => (List.mem_filter.mp (h a ha)).2

theorem filterTasksBySearch_eq_self (l ts : List Task) (q : String)
    (h : ∀ x ∈ l, x ∈ filterTasksBySearch ts q) : filterTasksBySearch l q = l := by
  simp only [filterTasksBySearch] at h ⊢
  by_cases hq : strToLower (strTrim q) = ""
  · simp [hq]
  · simp only [if_neg hq] at h ⊢
    exact List.filter_eq_self.mpr fun a ha => (List.mem_filter.mp (h a ha)).2

-- ─── Statistics helper lemmas ────────────────────────────────────────────────

theorem bumpStatus_comm (c : StatusCounts) (s₁ s₂ : Status) :
    bumpStatus (bumpStatus c s₁) s₂ = bumpStatus (bumpStatus c s₂) s₁ := by
  cases s₁ <;> cases s₂ <;> rfl

theorem bumpPriority_comm (c : PriorityCounts) (p₁ p₂ : Priority) :
    bumpPriority (bumpPriority c p₁) p₂ = bumpPriority (bumpPriority c p₂) p₁ := by
  cases p₁ <;> cases p₂ <;> rfl

theorem bumpCategory_comm (c : CategoryCounts) (k₁ k₂ : Category) :
    bumpCategory (bumpCategory c k₁) k₂ = bumpCategory (bumpCategory c k₂) k₁ := by
  cases k₁ <;> cases k₂ <;> rfl

theorem statsStep_comm (now : Int) (s : TaskStats) (a b : Task) :
    statsStep now (statsStep now s a) b = statsStep now (statsStep now s b) a := by
  by_cases h1 : isTaskOverdue now a <;> by_cases h2 : isTaskOverdue now b <;>
    simp [statsStep, bumpStatus_comm, bumpPriority_comm, bumpCategory_comm, h1, h2]

theorem foldl_statsStep_done (now : Int) (ts : List Task) (init : TaskStats) :
    (ts.foldl (statsStep now) init).byStatus.done =
      init.byStatus.done + ts.countP (fun t => t.status == Status.done) := by
  induction ts generalizing init with
  | nil => simp
  | cons t rest ih =>
    rw [List.foldl_cons, ih]
    cases h : t.status <;> (simp [statsStep, bumpStatus, List.countP_cons, h]; try omega)

-- ─── Concrete fixture tasks ──────────────────────────────────────────────────

def baseTask : Task :=
  { id := "base", title := "base", description := none, priority := .medium,
    category := .work, status := .todo, dueDate := none, createdAt := 0,
    updatedAt := 0, tags := [], assignee := none }

def lowTask : Task := { baseTask with id := "t1", priority := .low }

def criticalTask : Task := { baseTask with id := "t2", priority := .critical }

def highTask : Task := { baseTask with id := "t3", priority := .high }

def datedTask : Task := { baseTask with id := "d1", dueDate := some 100 }

def undatedTask : Task := { baseTask with id := "d2" }

/-- CLAIM C1 (counterexample): on tasks of priorities low, critical, high,
`sortTasks(_, priority, asc)` returns the HIGHEST priority first —
`[critical, high, low]` — not lowest-first as claimed: asc keeps the
comparator's built-in critical-first direction and only desc reverses. -/
theorem sortTasks_priority_asc_eval :
    sortTasks [lowTask, criticalTask, highTask] SortField.priority SortOrder.asc =
      [criticalTask, highTask, lowTask] ∧
    criticalTask.priority = Priority.critical ∧ lowTask.priority = Priority.low ∧
    ([criticalTask, highTask, lowTask] : List Task) ≠ [lowTask, highTask, criticalTask] := by
  refine ⟨?_, rfl, rfl, by decide⟩
  simp [sortTasks, List.mergeSort, List.merge, jsSortLe, comparatorFor, compareByPriority,
    getPriorityWeight, lowTask, criticalTask, highTask, baseTask]

/-- CLAIM C1 (amended): `asc` preserves each comparator's built-in direction
and `desc` reverses the sorted result wholesale; hence priority/asc yields
highest-priority-first (non-increasing weights) and priority/desc yields
lowest-priority-first. -/
theorem sortTasks_direction_spec :
    (∀ (ts : List Task) (f : SortField),
      sortTasks ts f SortOrder.desc = (sortTasks ts f SortOrder.asc).reverse) ∧
    (∀ ts : List Task,
      (sortTasks ts SortField.priority SortOrder.asc).Pairwise fun a b =>
        getPriorityWeight b.priority ≤ getPriorityWeight a.priority) ∧
    sortTasks [lowTask, criticalTask, highTask] SortField.priority SortOrder.desc =
      [lowTask, highTask, criticalTask] := by
  refine ⟨fun ts f => rfl, ?_, ?_⟩
  · intro ts
    have hs := List.sorted_mergeSort (fun a b c => jsSortLe_trans SortField.priority a b c)
      (fun a b => jsSortLe_total SortField.priority a b) ts
    refine hs.imp ?_
    intro a b hab
    simp only [jsSortLe, comparatorFor, compareByPriority, decide_eq_true_eq] at hab
    omega
  · simp [sortTasks, List.mergeSort, List.merge, jsSortLe, comparatorFor, compareByPriority,
      getPriorityWeight, lowTask, criticalTask, highTask, baseTask]

/-- CLAIM C3 (counterexample): with `desc`, `sortTasks` reverses the whole
array, so the undated task comes FIRST, contradicting "tasks with a due date
sort before tasks without one, regardless of requested order". -/
theorem sortTasks_dueDate_desc_undated_first :
    sortTasks [datedTask, undatedTask] SortField.dueDate SortOrder.desc =
      [undatedTask, datedTask] ∧
    undatedTask.dueDate = none ∧ datedTask.dueDate = some 100 ∧
    undatedTask ≠ datedTask := by
  refine ⟨?_, rfl, rfl, by decide⟩
  simp [sortTasks, List.mergeSort, List.merge, jsSortLe, comparatorFor, compareByDueDate,
    datedTask, undatedTask, baseTask]

/-- CLAIM C3 (amended): for `asc`, every dated task precedes every undated
one and dated tasks are in non-decreasing due-date order; the comparator
returns 0 on two undated tasks; for `desc` the entire `asc` result is
reversed (so undated tasks come first). -/
theorem sortTasks_dueDate_spec :
    ∀ ts : List Task,
      ((sortTasks ts SortField.dueDate SortOrder.asc).Pairwise fun a b =>
        (a.dueDate = none → b.dueDate = none) ∧
        ∀ da db, a.dueDate = some da → b.dueDate = some db → da ≤ db) ∧
      sortTasks ts SortField.dueDate SortOrder.desc =
        (sortTasks ts SortField.dueDate SortOrder.asc).reverse ∧
      ∀ a b : Task, a.dueDate = none → b.dueDate = none → compareByDueDate a b = 0 := by
  intro ts
  refine ⟨?_, rfl, ?_⟩
  · have hs := List.sorted_mergeSort
      (fun a b c => jsSortLe_trans SortField.dueDate a b c)
      (fun a b => jsSortLe_total SortField.dueDate a b) ts
    refine hs.imp ?_
    intro a b hab
    simp only [jsSortLe, comparatorFor, compareByDueDate, decide_eq_true_eq] at hab
    constructor
    · intro ha
      cases hb : b.dueDate with
      | none => rfl
      | some db => simp only [ha, hb] at hab; omega
    · intro da db hda hdb
      simp only [hda, hdb] at hab
      omega
  · intro a b ha hb
    simp [compareByDueDate, ha, hb]

/-- Witness for the C3 theorem at a concrete input. -/
theorem sortTasks_dueDate_spec_witness :
    compareByDueDate undatedTask undatedTask = 0 :=
  (sortTasks_dueDate_spec []).2.2 undatedTask undatedTask rfl rfl

/-- A concrete boundary task due exactly at instant 1000. -/
def dueAtTask : Task := { baseTask with id := "edge", dueDate := some 1000 }

/-- CLAIM C4: the overdue predicate holds iff the task has a due date
strictly before `now` and its status is not done; in particular a task due
exactly now is not overdue, and the same task is overdue one instant later. -/
theorem isTaskOverdue_spec :
    (∀ (now : Int) (task : Task),
      isTaskOverdue now task = true ↔
        (∃ d, task.dueDate = some d ∧ d < now) ∧ task.status ≠ Status.done) ∧
    isTaskOverdue 1000 dueAtTask = false ∧
    isTaskOverdue 1001 dueAtTask = true ∧
    (∀ (now : Int) (task : Task), task.dueDate = none → isTaskOverdue now task = false) ∧
    (∀ (now : Int) (task : Task), task.status = Status.done → isTaskOverdue now task = false) ∧
    (∀ (now : Int) (ts : List Task),
      filterOverdue now ts = ts.filter fun t => isTaskOverdue now t) := by
  refine ⟨?_, by decide, by decide, ?_, ?_, ?_⟩
  · intro now task
    unfold isTaskOverdue
    cases h : task.dueDate <;> by_cases hs : task.status = Status.done <;> simp [h, hs]
  · intro now task h
    simp [isTaskOverdue, h]
  · intro now task h
    cases hd : task.dueDate <;> simp [isTaskOverdue, h, hd]
  · intro now ts
    simp only [filterOverdue]
    refine List.filter_congr ?_
    intro x _
    cases hd : x.dueDate <;> by_cases hs : x.status = Status.done <;>
      simp [isTaskOverdue, hd, hs]

/-- Witness for the C4 theorem at a concrete input. -/
theorem isTaskOverdue_spec_witness :
    isTaskOverdue 0 baseTask = false :=
  isTaskOverdue_spec.2.2.2.1 0 baseTask rfl

-- ─── The C2 claim's comparator, modelled from the spec's words ───────────────

/-- The multi-sort tie-break rule exactly as the spec sentence states it
(negate when the order is asc, keep when desc) — for comparison against the
code's `multiCmp`, which does the opposite. -/
def multiCmpClaimed (criteria : List SortCriteria) (a b : Task) : Int :=
  match criteria with
  | [] => 0
  | c :: rest =>
    let cmp := comparatorFor c.field a b
    if cmp ≠ 0 then (if c.order = SortOrder.asc then -cmp else cmp)
    else multiCmpClaimed rest a b

/-- multiSort as the spec sentence would have it. -/
def multiSortClaimed (tasks : List Task) (criteria : List SortCriteria) : List Task :=
  tasks.mergeSort (jsSortLe (multiCmpClaimed criteria))

/-- CLAIM C2 (counterexample): on two tasks of priorities low and critical
with the single criterion priority/desc, the code negates the comparator
(yielding -3, low first) while the spec's stated rule keeps it (3, critical
first); under asc the code keeps 3 where the spec's rule would negate. -/
theorem multiSort_inversion_counterexample :
    multiCmp [⟨SortField.priority, SortOrder.desc⟩] lowTask criticalTask = -3 ∧
    multiCmpClaimed [⟨SortField.priority, SortOrder.desc⟩] lowTask criticalTask = 3 ∧
    multiCmp [⟨SortField.priority, SortOrder.asc⟩] lowTask criticalTask = 3 ∧
    multiCmpClaimed [⟨SortField.priority, SortOrder.asc⟩] lowTask criticalTask = -3 ∧
    multiSort [lowTask, criticalTask] [⟨SortField.priority, SortOrder.desc⟩] =
      [lowTask, criticalTask] ∧
    multiSortClaimed [lowTask, criticalTask] [⟨SortField.priority, SortOrder.desc⟩] =
      [criticalTask, lowTask] ∧
    multiSort [lowTask, criticalTask] [⟨SortField.priority, SortOrder.desc⟩] ≠
      multiSortClaimed [lowTask, criticalTask] [⟨SortField.priority, SortOrder.desc⟩] := by
  refine ⟨by decide, by decide, by decide, by decide, ?_, ?_, ?_⟩
  · simp [multiSort, List.mergeSort, List.merge, jsSortLe, multiCmp, comparatorFor,
      compareByPriority, getPriorityWeight, lowTask, criticalTask, baseTask]
  · simp [multiSortClaimed, List.mergeSort, List.merge, jsSortLe, multiCmpClaimed, comparatorFor,
      compareByPriority, getPriorityWeight, lowTask, criticalTask, baseTask]
  · intro h
    rw [show multiSort [lowTask, criticalTask] [⟨SortField.priority, SortOrder.desc⟩] =
        [lowTask, criticalTask] by
          simp [multiSort, List.mergeSort, List.merge, jsSortLe, multiCmp, comparatorFor,
            compareByPriority, getPriorityWeight, lowTask, criticalTask, baseTask],
      show multiSortClaimed [lowTask, criticalTask] [⟨SortField.priority, SortOrder.desc⟩] =
        [criticalTask, lowTask] by
          simp [multiSortClaimed, List.mergeSort, List.merge, jsSortLe, multiCmpClaimed,
            comparatorFor, compareByPriority, getPriorityWeight, lowTask, criticalTask,
            baseTask]] at h
    exact absurd h (by decide)

/-- CLAIM C2 (amended): the tie-break rule actually implemented — for each
criterion in sequence, a non-zero comparator result is negated when the
order is desc (kept unchanged when asc) and returned; the next criterion is
consulted only on exact zero; the chained comparator drives one stable sort. -/
theorem multiCmp_recurrence :
    (∀ (a b : Task) (f : SortField) (o : SortOrder) (rest : List SortCriteria),
      multiCmp (⟨f, o⟩ :: rest) a b =
        if comparatorFor f a b = 0 then multiCmp rest a b
        else if o = SortOrder.desc then -(comparatorFor f a b) else comparatorFor f a b) ∧
    (∀ a b : Task, multiCmp [] a b = 0) ∧
    ∀ (ts : List Task) (criteria : List SortCriteria),
      multiSort ts criteria = ts.mergeSort (jsSortLe (multiCmp criteria)) := by
  refine ⟨?_, fun a b => rfl, fun ts criteria => rfl⟩
  intro a b f o rest
  by_cases h : comparatorFor f a b = 0 <;> cases o <;> simp [multiCmp, h]

-- ─── Statistics fixtures ─────────────────────────────────────────────────────

def doneTask1 : Task := { baseTask with id := "s1", status := .done }

def inProgressTask : Task := { baseTask with id := "s2", status := .inProgress }

def doneTask2 : Task := { baseTask with id := "s3", status := .done }

/-- CLAIM C5: completionRate is `round(doneCount / total * 100)` when the
list is non-empty and exactly 0 on the empty list; the empty list yields the
fully zero-filled stats record (every status/priority/category counter
present and zero) with no error; the scenario `[done, in-progress, done]`
yields 67. -/
theorem calculateStats_completionRate_spec :
    (∀ (now : Int) (ts : List Task),
      (calculateStats now ts).completionRate =
        if 0 < ts.length then
          jsRound ((((ts.countP fun t => t.status == Status.done) : Nat) : Rat) /
            (ts.length : Rat) * 100)
        else 0) ∧
    (∀ now : Int, calculateStats now [] =
      { total := 0, byStatus := ⟨0, 0, 0⟩, byPriority := ⟨0, 0, 0, 0⟩,
        byCategory := ⟨0, 0, 0, 0, 0⟩, overdue := 0, completionRate := 0 }) ∧
    (calculateStats 0 [doneTask1, inProgressTask, doneTask2]).completionRate = 67 := by
  refine ⟨?_, fun now => rfl, ?_⟩
  · intro now ts
    simp only [calculateStats]
    rw [foldl_statsStep_done]
    simp
  · have hfold : (calculateStats 0 [doneTask1, inProgressTask, doneTask2]).completionRate =
        jsRound ((2 : Rat) / 3 * 100) := by
      simp [calculateStats, statsStep, bumpStatus, bumpPriority, bumpCategory, isTaskOverdue,
        doneTask1, inProgressTask, doneTask2, baseTask]
    rw [hfold, show jsRound ((2 : Rat) / 3 * 100) = ⌊((2 : ℚ) / 3 * 100 + 1 / 2)⌋ from rfl,
      Int.floor_eq_iff]
    constructor <;> norm_num

/-- CLAIM C6: calculateStats is invariant under permutation of its input —
the single-pass reduction is order-independent in every field. -/
theorem calculateStats_perm (now : Int) (l₁ l₂ : List Task) (h : l₁.Perm l₂) :
    calculateStats now l₁ = calculateStats now l₂ := by
  have hlen := h.length_eq
  have hfold : ∀ init : TaskStats,
      l₁.foldl (statsStep now) init = l₂.foldl (statsStep now) init :=
    fun init => h.foldl_eq' (fun x _ y _ z => statsStep_comm now z x y) init
  simp only [calculateStats, hlen, hfold]

/-- Witness for the C6 theorem at a concrete input. -/
theorem calculateStats_perm_witness :
    calculateStats 0 [doneTask1, inProgressTask] = calculateStats 0 [inProgressTask, doneTask1] :=
  calculateStats_perm 0 [doneTask1, inProgressTask] [inProgressTask, doneTask1] (by decide)

-- ─── Pipeline fixtures ───────────────────────────────────────────────────────

def scenLowTodo : Task := { baseTask with id := "p1", priority := .low, status := .todo }

def scenCriticalDone : Task := { baseTask with id := "p2", priority := .critical, status := .done }

def scenFilters : TaskFilters :=
  { search := "", priority := some .critical, category := none, status := some .todo,
    sortBy := .createdAt, sortOrder := .desc }

/-- CLAIM C7: applyFilters is exactly the fixed composition
search → priority → category → status → sort, and the spec scenario (a low
todo task and a critical done task, filtered by priority critical and status
todo) yields the empty list. -/
theorem applyFilters_stage_order :
    (∀ (ts : List Task) (f : TaskFilters),
      applyFilters ts f =
        sortTasks
          (filterByStatus
            (filterByCategory
              (filterByPriority (filterTasksBySearch ts f.search) f.priority)
              f.category)
            f.status)
          f.sortBy f.sortOrder) ∧
    applyFilters [scenLowTodo, scenCriticalDone] scenFilters = [] := by
  refine ⟨fun ts f => rfl, ?_⟩
  simp [applyFilters, filterTasksBySearch, strTrim, strToLower, filterByPriority,
    filterByCategory, filterByStatus, sortTasks, List.mergeSort, jsSortLe, scenLowTodo,
    scenCriticalDone, scenFilters, baseTask]

/-- CLAIM C9: updateTask keeps the original id and createdAt no matter what
the payload tries to set, stamps updatedAt with the current time, and takes
every other field from the payload when supplied and from the original
otherwise. -/
theorem updateTask_spec :
    ∀ (task : Task) (upd : PartialTask) (now : Int),
      (updateTask task upd now).id = task.id ∧
      (updateTask task upd now).createdAt = task.createdAt ∧
      (updateTask task upd now).updatedAt = now ∧
      (updateTask task upd now).title = upd.title.getD task.title ∧
      (updateTask task upd now).description = upd.description.getD task.description ∧
      (updateTask task upd now).priority = upd.priority.getD task.priority ∧
      (updateTask task upd now).category = upd.category.getD task.category ∧
      (updateTask task upd now).status = upd.status.getD task.status ∧
      (updateTask task upd now).dueDate = upd.dueDate.getD task.dueDate ∧
      (updateTask task upd now).tags = upd.tags.getD task.tags ∧
      (updateTask task upd now).assignee = upd.assignee.getD task.assignee :=
  fun _ _ _ => ⟨rfl, rfl, rfl, rfl, rfl, rfl, rfl, rfl, rfl, rfl, rfl⟩

/-- CLAIM C10: every individual filter stage returns a sublist (subsequence)
of its input: retained tasks occur in the input, in the same relative order,
with nothing duplicated or introduced. -/
theorem filter_stages_sublist :
    ∀ (now : Int) (ts : List Task) (q : String) (p : Option Priority)
      (c : Option Category) (s : Option Status),
      (filterTasksBySearch ts q).Sublist ts ∧
      (filterByPriority ts p).Sublist ts ∧
      (filterByCategory ts c).Sublist ts ∧
      (filterByStatus ts s).Sublist ts ∧
      (filterOverdue now ts).Sublist ts := by
  intro now ts q p c s
  refine ⟨?_, ?_, ?_, ?_, ?_⟩
  · simp only [filterTasksBySearch]
    split
    · exact List.Sublist.refl ts
    · exact List.filter_sublist ts
  · cases p
    · exact List.Sublist.refl ts
    · exact List.filter_sublist ts
  · cases c
    · exact List.Sublist.refl ts
    · exact List.filter_sublist ts
  · cases s
    · exact List.Sublist.refl ts
    · exact List.filter_sublist ts
  · simp only [filterOverdue]
    exact List.filter_sublist ts

-- ─── Idempotence of the pipeline ─────────────────────────────────────────────

theorem mem_of_filterByPriority {x : Task} {l : List Task} {p : Option Priority}
    (hx : x ∈ filterByPriority l p) : x ∈ l := by
  cases p
  · exact hx
  · exact List.mem_of_mem_filter hx

theorem mem_of_filterByCategory {x : Task} {l : List Task} {c : Option Category}
    (hx : x ∈ filterByCategory l c) : x ∈ l := by
  cases c
  · exact hx
  · exact List.mem_of_mem_filter hx

theorem mem_of_filterByStatus {x : Task} {l : List Task} {s : Option Status}
    (hx : x ∈ filterByStatus l s) : x ∈ l := by
  cases s
  · exact hx
  · exact List.mem_of_mem_filter hx

def tieFilters : TaskFilters :=
  { search := "", priority := none, category := none, status := none,
    sortBy := .createdAt, sortOrder := .desc }

def tiedA : Task := { baseTask with id := "tieA" }

def tiedB : Task := { baseTask with id := "tieB" }

/-- CLAIM C8 (counterexample): with sortOrder desc and two tasks tied on the
sort key, the first application yields `[tiedB, tiedA]` but applying the
pipeline to its own output yields `[tiedA, tiedB]` — the stable sort re-sorts
the reversed ties and the final reverse flips them back. -/
theorem applyFilters_not_idempotent :
    applyFilters [tiedA, tiedB] tieFilters = [tiedB, tiedA] ∧
    applyFilters (applyFilters [tiedA, tiedB] tieFilters) tieFilters = [tiedA, tiedB] ∧
    ([tiedB, tiedA] : List Task) ≠ [tiedA, tiedB] := by
  have h1 : applyFilters [tiedA, tiedB] tieFilters = [tiedB, tiedA] := by
    simp [applyFilters, filterTasksBySearch, strTrim, strToLower, filterByPriority,
      filterByCategory, filterByStatus, sortTasks, List.mergeSort, List.merge, jsSortLe,
      comparatorFor, compareByCreatedAt, tieFilters, tiedA, tiedB, baseTask]
  refine ⟨h1, ?_, by decide⟩
  rw [h1]
  simp [applyFilters, filterTasksBySearch, strTrim, strToLower, filterByPriority,
    filterByCategory, filterByStatus, sortTasks, List.mergeSort, List.merge, jsSortLe,
    comparatorFor, compareByCreatedAt, tieFilters, tiedA, tiedB, baseTask]

/-- CLAIM C8 (amended): the pipeline is idempotent whenever the requested
sortOrder is asc — re-filtering keeps everything already retained and a
stable re-sort of a sorted list is the identity. (With desc, ties may swap,
as the counterexample shows.) -/
theorem applyFilters_idem_asc :
    ∀ (ts : List Task) (f : TaskFilters), f.sortOrder = SortOrder.asc →
      applyFilters (applyFilters ts f) f = applyFilters ts f := by
  intro ts f h
  obtain ⟨q, p, c, s, fld, o⟩ := f
  change o = SortOrder.asc at h
  subst h
  simp only [applyFilters, sortTasks]
  generalize hS3 :
    filterByStatus (filterByCategory (filterByPriority (filterTasksBySearch ts q) p) c) s = S3
  have m3 : ∀ x ∈ S3.mergeSort (jsSortLe (comparatorFor fld)),
      x ∈ filterByStatus (filterByCategory (filterByPriority
        (filterTasksBySearch ts q) p) c) s := by
    rw [hS3]
    exact fun x hx => List.mem_mergeSort.mp hx
  have m2 : ∀ x ∈ S3.mergeSort (jsSortLe (comparatorFor fld)),
      x ∈ filterByCategory (filterByPriority (filterTasksBySearch ts q) p) c :=
    fun x hx => mem_of_filterByStatus (m3 x hx)
  have m1 : ∀ x ∈ S3.mergeSort (jsSortLe (comparatorFor fld)),
      x ∈ filterByPriority (filterTasksBySearch ts q) p :=
    fun x hx => mem_of_filterByCategory (m2 x hx)
  have m0 : ∀ x ∈ S3.mergeSort (jsSortLe (comparatorFor fld)),
      x ∈ filterTasksBySearch ts q :=
    fun x hx => mem_of_filterByPriority (m1 x hx)
  rw [filterTasksBySearch_eq_self _ _ q m0, filterByPriority_eq_self _ _ p m1,
    filterByCategory_eq_self _ _ c m2, filterByStatus_eq_self _ _ s m3]
  exact mergeSort_field_idem fld S3

def ascFilters : TaskFilters :=
  { search := "", priority := none, category := none, status := none,
    sortBy := .title, sortOrder := .asc }

/-- Witness for the C8 amended theorem at a concrete input. -/
theorem applyFilters_idem_asc_witness :
    applyFilters (applyFilters [lowTask, highTask] ascFilters) ascFilters =
      applyFilters [lowTask, highTask] ascFilters :=
  applyFilters_idem_asc [lowTask, highTask] ascFilters rfl

end TaskFlow
